import Mathlib

/-!
Shallow embedding of `src/app/DoctorListing.tsx` (doc-listing repository).

The page fetches a JSON array of doctors, keeps filter state (search term,
consultation mode, selected specialties, sort key) synchronized with URL
query parameters, and derives the visible list and autocomplete suggestions
from the raw list plus the filter state.  The stateful React effects are
embedded as pure functions: the filtering/sorting effect becomes
`filterAndSort`, the suggestion effect becomes `computeSuggestions`, the
URL writer becomes `updateUrlParams` over an abstract key/value pair list
(the content of a `URLSearchParams`), the URL reader becomes
`initStateFromParams`, and the fetch handler becomes `fetchData` over an
abstract fetch outcome.  JavaScript `Array.prototype.sort` (stable since
ES2019) is embedded as `List.mergeSort`; `String.prototype.toLowerCase`
is embedded as `Char.toLower` over the ASCII range.
-/

namespace DoctorListing

open List

/-- Address part of the `Doctor` interface (DoctorListing.tsx lines 19-25). -/
structure Address where
  locality : String := ""
  city : String := ""
  address_line1 : String := ""
  location : String := ""
  logo_url : Option String := none
deriving DecidableEq, Repr

/-- Clinic part of the `Doctor` interface (DoctorListing.tsx lines 17-26). -/
structure Clinic where
  name : String := ""
  address : Address := {}
deriving DecidableEq, Repr

/-- One entry of the `specialities: { name: string }[]` field. -/
structure Speciality where
  name : String
deriving DecidableEq, Repr

/-- The `Doctor` interface of DoctorListing.tsx (lines 7-30). -/
structure Doctor where
  id : String := ""
  name : String := ""
  name_initials : String := ""
  photo : String := ""
  doctor_introduction : String := ""
  specialities : List Speciality := []
  fees : String := ""
  experience : String := ""
  languages : List String := []
  clinic : Clinic := {}
  video_consult : Bool := false
  in_clinic : Bool := false
deriving DecidableEq, Repr

/-- Value of a list of decimal digit characters, as `parseInt` reads them. -/
def digitsToNat (ds : List Char) : Nat :=
  ds.foldl (fun n c => 10 * n + (c.toNat - 48)) 0

/-- Embedding of `parseFee` (lines 34-37):
`parseInt(feeString?.replace(/[^0-9.]/g, ""), 10) || 0`.
The replace keeps only digits and the dot; `parseInt` then reads the leading
digit run of what remains (a leading dot or an empty remainder gives `NaN`),
and `|| 0` maps `NaN` (and `0` itself) to `0`. -/
def parseFee (feeString : String) : Nat :=
  let stripped := feeString.data.filter (fun c => c.isDigit || c == '.')
  let digits := stripped.takeWhile Char.isDigit
  if digits.isEmpty then 0 else digitsToNat digits

/-- Embedding of `parseExperience` (lines 40-44):
`expString?.match(/^(\d+)/)`, then `parseInt` of the captured group,
`0` when the string does not start with a digit. -/
def parseExperience (expString : String) : Nat :=
  let digits := expString.data.takeWhile Char.isDigit
  if digits.isEmpty then 0 else digitsToNat digits

/-- Decides whether `target` is a prefix of `l` (comparing with `==`). -/
def isPrefixList : List Char → List Char → Bool
  | [], _ => true
  | _ :: _, [] => false
  | a :: as, b :: bs => a == b && isPrefixList as bs

/-- Embedding of JavaScript `hay.includes(needle)` on strings, over their
character lists: some suffix of `hay` starts with `needle`. -/
def strIncludes (needle : List Char) : List Char → Bool
  | [] => isPrefixList needle []
  | c :: t => isPrefixList needle (c :: t) || strIncludes needle t

/-- Lowercasing of a string as in `toLowerCase`, over the ASCII range. -/
def lowerChars (s : String) : List Char :=
  s.data.map Char.toLower

/-- The filter/sort state of the page: `searchTerm`, `selectedConsultation`,
`selectedSpecialties`, `sortBy` (lines 57-63).  The two nullable string
states are `Option String`; JavaScript truthiness of a nullable string
(`null` and `""` both falsy) is spelled out at each use site. -/
structure FilterState where
  searchTerm : String := ""
  selectedConsultation : Option String := none
  selectedSpecialties : List String := []
  sortBy : Option String := none
deriving DecidableEq, Repr

/-- Stage 1 of the filtering effect (lines 126-131): when `searchTerm` is
truthy (non-empty), keep doctors whose lowercased name includes the
lowercased search term. -/
def searchStage (searchTerm : String) (l : List Doctor) : List Doctor :=
  if searchTerm = "" then l
  else
    let lowerSearchTerm := lowerChars searchTerm
    l.filter (fun doctor => strIncludes lowerSearchTerm (lowerChars doctor.name))

/-- The consultation predicate of lines 136-138: `"video"` tests
`video_consult`, `"clinic"` tests `in_clinic`, anything else is `false`. -/
def consultationPred (mode : String) (doctor : Doctor) : Bool :=
  if mode = "video" then doctor.video_consult
  else if mode = "clinic" then doctor.in_clinic
  else false

/-- Stage 2 of the filtering effect (lines 134-140): applied only when
`selectedConsultation` is truthy (set and non-empty). -/
def consultationStage (selectedConsultation : Option String) (l : List Doctor) :
    List Doctor :=
  match selectedConsultation with
  | none => l
  | some mode => if mode = "" then l else l.filter (consultationPred mode)

/-- Stage 3 of the filtering effect (lines 143-148): when at least one
specialty is selected, keep doctors for which `specialities.some` name is
contained in the selected list. -/
def specialtyStage (selectedSpecialties : List String) (l : List Doctor) :
    List Doctor :=
  if selectedSpecialties.length > 0 then
    l.filter (fun doctor =>
      doctor.specialities.any (fun specObj =>
        selectedSpecialties.contains specObj.name))
  else l

/-- The comparator passed to `result.sort` (lines 152-159), as an integer:
fees ascending, experience descending, otherwise `0`. -/
def sortComparator (sortBy : String) (a b : Doctor) : Int :=
  if sortBy = "fees" then (parseFee a.fees : Int) - (parseFee b.fees : Int)
  else if sortBy = "experience" then
    (parseExperience b.experience : Int) - (parseExperience a.experience : Int)
  else 0

/-- Stage 4 of the filtering effect (lines 151-160): applied only when
`sortBy` is truthy; `Array.prototype.sort` is stable, embedded as
`mergeSort` with `le a b` meaning the comparator is `≤ 0`. -/
def sortStage (sortBy : Option String) (l : List Doctor) : List Doctor :=
  match sortBy with
  | none => l
  | some key =>
    if key = "" then l
    else l.mergeSort (fun a b => sortComparator key a b ≤ 0)

/-- The whole filtering/sorting effect (lines 122-164): search, then
consultation, then specialty, then sort. -/
def filterAndSort (st : FilterState) (allDoctors : List Doctor) : List Doctor :=
  sortStage st.sortBy
    (specialtyStage st.selectedSpecialties
      (consultationStage st.selectedConsultation
        (searchStage st.searchTerm allDoctors)))

/-- The autocomplete suggestion effect (lines 168-180): when the search term
and the doctor list are both non-empty, the first 5 doctors whose lowercased
name includes the lowercased search term; otherwise the empty list. -/
def computeSuggestions (searchTerm : String) (allDoctors : List Doctor) :
    List Doctor :=
  if searchTerm.length > 0 ∧ allDoctors.length > 0 then
    let lowerSearchTerm := lowerChars searchTerm
    (allDoctors.filter (fun doctor =>
      strIncludes lowerSearchTerm (lowerChars doctor.name))).take 5
  else []

/-- Content of a `URLSearchParams`: key/value pairs in insertion order.
Percent-encoding of the serialized text is not modelled; `URLSearchParams`
encodes and decodes it consistently on both sides. -/
abbrev UrlParams := List (String × String)

/-- Embedding of `URLSearchParams.get`: the value of the first pair with the
given key, or `null`. -/
def paramsGet (params : UrlParams) (key : String) : Option String :=
  (params.find? (fun p => p.1 == key)).map Prod.snd

/-- Embedding of `URLSearchParams.getAll`: the values of all pairs with the
given key, in order. -/
def paramsGetAll (params : UrlParams) (key : String) : List String :=
  (params.filter (fun p => p.1 == key)).map Prod.snd

/-- Embedding of `updateUrlParams` (lines 104-114): `search` is set when
`searchTerm` is truthy, `consultation` when `selectedConsultation` is truthy,
one `specialty` pair is appended per selected specialty, and `sort` is set
when `sortBy` is truthy. -/
def updateUrlParams (st : FilterState) : UrlParams :=
  (if st.searchTerm = "" then [] else [("search", st.searchTerm)]) ++
    (match st.selectedConsultation with
      | none => []
      | some c => if c = "" then [] else [("consultation", c)]) ++
    st.selectedSpecialties.map (fun spec => ("specialty", spec)) ++
    (match st.sortBy with
      | none => []
      | some s => if s = "" then [] else [("sort", s)])

/-- Embedding of the URL-parameter initialization effect (lines 95-101):
`search` read with `|| ""`, `consultation` and `sort` read as nullable
strings, `specialty` read with `getAll`. -/
def initStateFromParams (params : UrlParams) : FilterState :=
  { searchTerm := (paramsGet params "search").getD ""
    selectedConsultation := paramsGet params "consultation"
    selectedSpecialties := paramsGetAll params "specialty"
    sortBy := paramsGet params "sort" }

/-- Result of `await response.json()` in the fetch handler, as a JSON value;
the payload of an array body is a list of doctor records. -/
inductive JsonBody where
  | jnull
  | jbool (b : Bool)
  | jnum (n : Int)
  | jstr (s : String)
  | jarr (doctors : List Doctor)
  | jobj
deriving DecidableEq, Repr

/-- JavaScript truthiness of a parsed JSON value: `null`, `false`, `0` and
`""` are falsy; every object, arrays included, is truthy. -/
def JsonBody.truthy : JsonBody → Bool
  | .jnull => false
  | .jbool b => b
  | .jnum n => n != 0
  | .jstr s => !(s == "")
  | .jarr _ => true
  | .jobj => true

/-- Outcome of the one `fetch` call: a rejected promise (network error,
carrying the rejection's message), or a response with an HTTP status whose
body either fails to parse as JSON (carrying the parse error's message) or
parses to a `JsonBody`. -/
inductive FetchOutcome where
  | networkError (message : String)
  | response (status : Nat) (body : Except String JsonBody)
deriving Repr

/-- The component state the fetch effect writes: the value stored by
`setAllDoctors` (kept as a JSON value, since `data || []` does not force an
array), the error banner text, and the loading flag. -/
structure FetchState where
  allDoctors : JsonBody
  error : Option String
  isLoading : Bool
deriving DecidableEq, Repr

/-- The `response.ok` test: status in the inclusive range 200-299. -/
def responseOk (status : Nat) : Bool :=
  200 ≤ status && status ≤ 299

/-- The error banner text built in the catch block (lines 83-85), for a
caught `Error` with the given message. -/
def errorText (message : String) : String :=
  "Failed to load doctor data. " ++ message

/-- Embedding of `fetchData` (lines 67-89).  A non-ok status throws
`HTTP error! status: N` before the body is read; a rejected fetch or a JSON
parse failure throws with its own message; the catch block records the
banner text and leaves `allDoctors` at its initial `[]`; on success
`setAllDoctors(data || [])` stores the parsed body itself when it is truthy
and `[]` otherwise, and the error set to `null` at the start stays cleared. -/
def fetchData : FetchOutcome → FetchState
  | .networkError message =>
    { allDoctors := .jarr [], error := some (errorText message), isLoading := false }
  | .response status body =>
    if responseOk status then
      match body with
      | .error message =>
        { allDoctors := .jarr [], error := some (errorText message),
          isLoading := false }
      | .ok data =>
        { allDoctors := if data.truthy then data else .jarr [],
          error := none, isLoading := false }
    else
      { allDoctors := .jarr [],
        error := some (errorText ("HTTP error! status: " ++ toString status)),
        isLoading := false }

/-! Sample records used in concrete parts of the statements below. -/

/-- Doctor with fee string `"₹ 500"`. -/
def feeDoc500 : Doctor := { name := "A", fees := "₹ 500" }

/-- Doctor with fee string `"₹ 100"`. -/
def feeDoc100 : Doctor := { name := "B", fees := "₹ 100" }

/-- Doctor with the unparseable fee string `"abc"`. -/
def feeDocAbc : Doctor := { name := "C", fees := "abc" }

/-- Doctor with experience string `"5 Years of experience"`. -/
def expDoc5 : Doctor := { name := "D", experience := "5 Years of experience" }

/-- Doctor with experience string `"13 Years of experience"`. -/
def expDoc13 : Doctor := { name := "E", experience := "13 Years of experience" }

/-- Doctor named `"Anita"`. -/
def anitaDoctor : Doctor := { name := "Anita" }

/-- Doctor named `"Karan"`. -/
def karanDoctor : Doctor := { name := "Karan" }

/-- Doctor offering video consultation, with one specialty. -/
def sampleDoctor : Doctor :=
  { name := "Sam", specialities := [⟨"Dentist"⟩], video_consult := true }

/-! Helper lemmas. -/

/-- The prefix test decides the existence of a completing suffix. -/
theorem isPrefixList_iff :
    ∀ (n h : List Char), isPrefixList n h = true ↔ ∃ t, n ++ t = h
  | [], h => by simp [isPrefixList]
  | a :: as, [] => by simp [isPrefixList]
  | a :: as, b :: bs => by
    simp [isPrefixList, isPrefixList_iff as bs]

/-- The substring test decides the existence of a factorization. -/
theorem strIncludes_iff (n : List Char) :
    ∀ h : List Char, strIncludes n h = true ↔ ∃ s t, s ++ n ++ t = h := by
  intro h
  induction h with
  | nil =>
    simp [strIncludes, isPrefixList_iff]
  | cons c t ih =>
    simp only [strIncludes, Bool.or_eq_true, isPrefixList_iff, ih]
    constructor
    · rintro (⟨u, hu⟩ | ⟨s, u, hu⟩)
      · exact ⟨[], u, by simpa using hu⟩
      · exact ⟨c :: s, u, by simp [hu]⟩
    · rintro ⟨s, u, hu⟩
      cases s with
      | nil => exact Or.inl ⟨u, by simpa using hu⟩
      | cons a s' =>
        rcases List.cons_eq_cons.mp hu with ⟨rfl, hu'⟩
        exact Or.inr ⟨s', u, hu'⟩

/-- The search stage keeps a sublist of its input. -/
theorem searchStage_sublist (term : String) (l : List Doctor) :
    searchStage term l <+ l := by
  unfold searchStage
  split
  · exact List.Sublist.refl l
  · exact List.filter_sublist l

/-- The consultation stage keeps a sublist of its input. -/
theorem consultationStage_sublist (sel : Option String) (l : List Doctor) :
    consultationStage sel l <+ l := by
  unfold consultationStage
  cases sel with
  | none => exact List.Sublist.refl l
  | some mode =>
    dsimp only
    split
    · exact List.Sublist.refl l
    · exact List.filter_sublist l

/-- The specialty stage keeps a sublist of its input. -/
theorem specialtyStage_sublist (sel : List String) (l : List Doctor) :
    specialtyStage sel l <+ l := by
  unfold specialtyStage
  split
  · exact List.filter_sublist l
  · exact List.Sublist.refl l

/-- The sort stage permutes its input. -/
theorem sortStage_perm (k : Option String) (l : List Doctor) :
    sortStage k l ~ l := by
  unfold sortStage
  cases k with
  | none => exact List.Perm.refl l
  | some key =>
    dsimp only
    split
    · exact List.Perm.refl l
    · exact List.mergeSort_perm l _

/-- Stability of `mergeSort` along a class of pairwise-comparable elements:
filtering by a predicate on which `le` always holds commutes with sorting. -/
theorem mergeSort_filter_of_class {α : Type} (le : α → α → Bool)
    (htrans : ∀ a b c, le a b → le b c → le a c)
    (htotal : ∀ a b, le a b || le b a)
    (p : α → Bool) (hp : ∀ a b, p a → p b → le a b) (l : List α) :
    (l.mergeSort le).filter p = l.filter p := by
  have hc : (l.filter p).Pairwise (fun a b => le a b) := by
    apply List.pairwise_of_forall_mem_list
    intro a ha b hb
    exact hp a b (List.mem_filter.mp ha).2 (List.mem_filter.mp hb).2
  have h1 : l.filter p <+ l.mergeSort le :=
    List.sublist_mergeSort htrans htotal hc (List.filter_sublist l)
  have h2 : (l.filter p).filter p = l.filter p :=
    List.filter_eq_self.mpr (fun a ha => (List.mem_filter.mp ha).2)
  have h3 : l.filter p <+ (l.mergeSort le).filter p := by
    have := h1.filter p
    rwa [h2] at this
  have h4 : ((l.mergeSort le).filter p).length = (l.filter p).length :=
    ((List.mergeSort_perm l le).filter p).length_eq
  exact (h3.eq_of_length h4.symm).symm

/-! Claim theorems. -/

/-- C1: the spec says a non-array response body is stored as an empty array,
and the code's own comment says `data || []` is there to "Ensure data is an
array"; but `||` only replaces falsy values, so a truthy non-array body — a
JSON object, for example — is stored as the doctor collection unchanged.
This theorem evaluates the fetch handler at that failing input: a 200
response whose body parses to a JSON object is stored as the object itself
(with no error and no uncaught failure), not as the empty array. -/
theorem fetch_stores_truthy_nonarray_body :
    fetchData (.response 200 (.ok .jobj)) =
      { allDoctors := JsonBody.jobj, error := none, isLoading := false } ∧
    fetchData (.response 200 (.ok .jnull)) =
      { allDoctors := JsonBody.jarr [], error := none, isLoading := false } ∧
    JsonBody.jobj ≠ JsonBody.jarr [] := by
  refine ⟨rfl, rfl, by decide⟩

/-- C5: with mode `"video"` the consultation stage is exactly the filter on
the `video_consult` flag, with mode `"clinic"` exactly the filter on the
`in_clinic` flag, and any other non-empty mode filters out every doctor. -/
theorem consultation_filter_spec (l : List Doctor) (d : Doctor) (m : String)
    (hm1 : m ≠ "") (hm2 : m ≠ "video") (hm3 : m ≠ "clinic") :
    consultationStage (some "video") l = l.filter (fun x => x.video_consult) ∧
    consultationStage (some "clinic") l = l.filter (fun x => x.in_clinic) ∧
    (d ∈ consultationStage (some "video") l ↔ d ∈ l ∧ d.video_consult = true) ∧
    (d ∈ consultationStage (some "clinic") l ↔ d ∈ l ∧ d.in_clinic = true) ∧
    consultationStage (some m) l = [] := by
  have hv : ∀ x : Doctor, consultationPred "video" x = x.video_consult := by
    intro x; simp [consultationPred]
  have hc : ∀ x : Doctor, consultationPred "clinic" x = x.in_clinic := by
    intro x; simp [consultationPred]
  have hm : ∀ x : Doctor, consultationPred m x = false := by
    intro x; simp [consultationPred, hm2, hm3]
  refine ⟨?_, ?_, ?_, ?_, ?_⟩
  · simp only [consultationStage, funext hv]
    rw [if_neg (by decide : ¬ ("video" : String) = "")]
  · simp only [consultationStage, funext hc]
    rw [if_neg (by decide : ¬ ("clinic" : String) = "")]
  · simp [consultationStage, hv, List.mem_filter]
  · simp [consultationStage, hc, List.mem_filter]
  · simp [consultationStage, hm1, hm]

/-- Witness for `consultation_filter_spec` at a concrete list, doctor and
unrecognized mode. -/
theorem consultation_filter_spec_witness :
    consultationStage (some "video") [sampleDoctor] =
      [sampleDoctor].filter (fun x => x.video_consult) ∧
    consultationStage (some "clinic") [sampleDoctor] =
      [sampleDoctor].filter (fun x => x.in_clinic) ∧
    (sampleDoctor ∈ consultationStage (some "video") [sampleDoctor] ↔
      sampleDoctor ∈ [sampleDoctor] ∧ sampleDoctor.video_consult = true) ∧
    (sampleDoctor ∈ consultationStage (some "clinic") [sampleDoctor] ↔
      sampleDoctor ∈ [sampleDoctor] ∧ sampleDoctor.in_clinic = true) ∧
    consultationStage (some "phone") [sampleDoctor] = [] :=
  consultation_filter_spec [sampleDoctor] sampleDoctor "phone"
    (by decide) (by decide) (by decide)

/-- C10: a non-empty sort key other than `"fees"` and `"experience"` makes
the comparator return `0` on every pair, so the stable sort leaves the
filtered list unchanged; by contrast an unrecognized non-empty consultation
mode excludes every doctor. -/
theorem unknown_sort_key_spec (key m : String) (l : List Doctor)
    (h1 : key ≠ "") (h2 : key ≠ "fees") (h3 : key ≠ "experience")
    (hm1 : m ≠ "") (hm2 : m ≠ "video") (hm3 : m ≠ "clinic") :
    sortStage (some key) l = l ∧ consultationStage (some m) l = [] := by
  constructor
  · have hcmp : ∀ a b : Doctor, sortComparator key a b = 0 := by
      intro a b; simp [sortComparator, h2, h3]
    simp only [sortStage]
    rw [if_neg h1]
    apply List.mergeSort_of_sorted
    apply List.pairwise_of_forall
    intro a b
    simp [hcmp]
  · have hm : ∀ x : Doctor, consultationPred m x = false := by
      intro x; simp [consultationPred, hm2, hm3]
    simp [consultationStage, hm1, hm]

/-- Witness for `unknown_sort_key_spec` at the concrete key `"rating"` and
mode `"phone"`. -/
theorem unknown_sort_key_spec_witness :
    sortStage (some "rating") [sampleDoctor] = [sampleDoctor] ∧
    consultationStage (some "phone") [sampleDoctor] = [] :=
  unknown_sort_key_spec "rating" "phone" [sampleDoctor]
    (by decide) (by decide) (by decide) (by decide) (by decide) (by decide)

/-- C9 counterexample: the state-to-URL-to-state round-trip is not the
identity on all filter states.  Loading the page with the query string
`?consultation=` initializes `selectedConsultation` to the empty string;
serializing that state omits the falsy `consultation` field, and parsing
the result back yields `null` instead of the empty string. -/
theorem url_roundtrip_counterexample :
    initStateFromParams (updateUrlParams
      { searchTerm := "", selectedConsultation := some "",
        selectedSpecialties := [], sortBy := none }) ≠
      { searchTerm := "", selectedConsultation := some "",
        selectedSpecialties := [], sortBy := none } := by
  decide

/-- C2: for every raw list and filter state the derived list is a
sub-permutation of the raw list — every output doctor occurs in the raw
list, none is invented and none is duplicated — and when no sort key is
set the output is a sublist of the raw list, preserving its order. -/
theorem filterAndSort_subperm (st : FilterState) (l : List Doctor) :
    filterAndSort st l <+~ l ∧
    (st.sortBy = none → filterAndSort st l <+ l) := by
  have hsub : specialtyStage st.selectedSpecialties
      (consultationStage st.selectedConsultation
        (searchStage st.searchTerm l)) <+ l :=
    ((specialtyStage_sublist _ _).trans
      (consultationStage_sublist _ _)).trans (searchStage_sublist _ _)
  constructor
  · exact ((sortStage_perm st.sortBy _).subperm).trans hsub.subperm
  · intro h
    simpa [filterAndSort, h, sortStage] using hsub

/-- Witness for `filterAndSort_subperm` at a concrete state and list. -/
theorem filterAndSort_subperm_witness :
    filterAndSort { searchTerm := "a", sortBy := some "fees" }
        [feeDoc500, feeDoc100, feeDocAbc] <+~
      [feeDoc500, feeDoc100, feeDocAbc] ∧
    (FilterState.sortBy { searchTerm := "a", sortBy := some "fees" } = none →
      filterAndSort { searchTerm := "a", sortBy := some "fees" }
          [feeDoc500, feeDoc100, feeDocAbc] <+
        [feeDoc500, feeDoc100, feeDocAbc]) :=
  filterAndSort_subperm { searchTerm := "a", sortBy := some "fees" }
    [feeDoc500, feeDoc100, feeDocAbc]

/-- C7: the name-search stage keeps a doctor exactly when the lowercased
search text occurs as a factor of the lowercased name; the empty search
text keeps everything; searching `"an"` matches both `"Anita"` and
`"Karan"`. -/
theorem search_filter_spec (term : String) (l : List Doctor) (d : Doctor) :
    (d ∈ searchStage term l ↔
      d ∈ l ∧ ∃ s t, s ++ lowerChars term ++ t = lowerChars d.name) ∧
    searchStage "" l = l ∧
    anitaDoctor ∈ searchStage "an" [anitaDoctor, karanDoctor] ∧
    karanDoctor ∈ searchStage "an" [anitaDoctor, karanDoctor] := by
  refine ⟨?_, rfl, by decide, by decide⟩
  by_cases ht : term = ""
  · subst ht
    simp only [searchStage, if_pos rfl]
    constructor
    · intro hd
      exact ⟨hd, [], lowerChars d.name, by simp [lowerChars]⟩
    · exact fun hd => hd.1
  · simp [searchStage, ht, List.mem_filter, strIncludes_iff]

/-- C6: with a non-empty selection the specialty stage keeps a doctor
exactly when at least one of its specialty names is among the selected
ones, and selecting two specialties keeps the union of the doctors kept by
each alone. -/
theorem specialty_filter_spec (sel : List String) (l : List Doctor)
    (d : Doctor) (h : sel ≠ []) :
    (d ∈ specialtyStage sel l ↔
      d ∈ l ∧ ∃ s ∈ d.specialities, s.name ∈ sel) ∧
    ∀ a b : String, (d ∈ specialtyStage [a, b] l ↔
      d ∈ specialtyStage [a] l ∨ d ∈ specialtyStage [b] l) := by
  have hmem : ∀ (sel' : List String), sel' ≠ [] →
      (d ∈ specialtyStage sel' l ↔
        d ∈ l ∧ ∃ s ∈ d.specialities, s.name ∈ sel') := by
    intro sel' h'
    have hlen : sel'.length > 0 := List.length_pos.mpr h'
    simp [specialtyStage, hlen, List.mem_filter, List.any_eq_true]
  refine ⟨hmem sel h, ?_⟩
  intro a b
  rw [hmem [a, b] (by simp), hmem [a] (by simp), hmem [b] (by simp)]
  constructor
  · rintro ⟨hd, s, hs, hname⟩
    rcases List.mem_pair.mp hname with h1 | h1
    · exact Or.inl ⟨hd, s, hs, by simp [h1]⟩
    · exact Or.inr ⟨hd, s, hs, by simp [h1]⟩
  · rintro (⟨hd, s, hs, hname⟩ | ⟨hd, s, hs, hname⟩)
    · exact ⟨hd, s, hs, by simp at hname; simp [hname]⟩
    · exact ⟨hd, s, hs, by simp at hname; simp [hname]⟩

/-- Witness for `specialty_filter_spec` at a concrete selection, list and
doctor. -/
theorem specialty_filter_spec_witness :
    (sampleDoctor ∈ specialtyStage ["Dentist"] [sampleDoctor] ↔
      sampleDoctor ∈ [sampleDoctor] ∧
        ∃ s ∈ sampleDoctor.specialities, s.name ∈ ["Dentist"]) ∧
    ∀ a b : String,
      (sampleDoctor ∈ specialtyStage [a, b] [sampleDoctor] ↔
        sampleDoctor ∈ specialtyStage [a] [sampleDoctor] ∨
          sampleDoctor ∈ specialtyStage [b] [sampleDoctor]) :=
  specialty_filter_spec ["Dentist"] [sampleDoctor] sampleDoctor (by decide)

/-- C8: suggestions are empty for an empty search text, and otherwise are
the first at most 5 doctors, in raw-list order, whose lowercased name has
the lowercased search text as a factor; in particular the suggestion list
never exceeds 5 entries, and every suggested doctor occurs in the raw list
with a matching name.  The extra `allDoctors.length > 0` guard in the code
changes nothing: with no data both branches produce the empty list. -/
theorem suggestions_spec (term : String) (raw : List Doctor) :
    (term = "" → computeSuggestions term raw = []) ∧
    (term ≠ "" → computeSuggestions term raw =
      (raw.filter (fun x =>
        strIncludes (lowerChars term) (lowerChars x.name))).take 5) ∧
    (computeSuggestions term raw).length ≤ 5 ∧
    ∀ d ∈ computeSuggestions term raw,
      d ∈ raw ∧ ∃ s t, s ++ lowerChars term ++ t = lowerChars d.name := by
  have hterm : term ≠ "" → term.length > 0 := by
    intro h
    rcases term with ⟨cs⟩
    cases cs with
    | nil => exact absurd rfl h
    | cons c t => simp [String.length]
  have czero : term = "" → computeSuggestions term raw = [] := by
    intro h
    subst h
    rfl
  have cfull : term ≠ "" → computeSuggestions term raw =
      (raw.filter (fun x =>
        strIncludes (lowerChars term) (lowerChars x.name))).take 5 := by
    intro h
    cases raw with
    | nil =>
      have hno : ¬ (term.length > 0 ∧ ([] : List Doctor).length > 0) := by simp
      simp only [computeSuggestions]
      rw [if_neg hno]
      simp
    | cons a t =>
      have h1 : term.length > 0 := hterm h
      have h2 : (a :: t).length > 0 := by simp
      simp only [computeSuggestions]
      rw [if_pos ⟨h1, h2⟩]
  have clen : (computeSuggestions term raw).length ≤ 5 := by
    by_cases h : term = ""
    · rw [czero h]
      simp
    · rw [cfull h, List.length_take]
      exact Nat.min_le_left _ _
  have cmem : ∀ d ∈ computeSuggestions term raw,
      d ∈ raw ∧ ∃ s t, s ++ lowerChars term ++ t = lowerChars d.name := by
    intro d hd
    by_cases h : term = ""
    · rw [czero h] at hd
      simp at hd
    · rw [cfull h] at hd
      have hd' := List.mem_filter.mp (List.mem_of_mem_take hd)
      exact ⟨hd'.1, (strIncludes_iff _ _).mp hd'.2⟩
  exact ⟨czero, cfull, clen, cmem⟩

/-- Witness for `suggestions_spec` at a concrete search text and raw list. -/
theorem suggestions_spec_witness :
    (("an" : String) = "" →
      computeSuggestions "an" [anitaDoctor, karanDoctor] = []) ∧
    (("an" : String) ≠ "" →
      computeSuggestions "an" [anitaDoctor, karanDoctor] =
        ([anitaDoctor, karanDoctor].filter (fun x =>
          strIncludes (lowerChars "an") (lowerChars x.name))).take 5) ∧
    (computeSuggestions "an" [anitaDoctor, karanDoctor]).length ≤ 5 ∧
    ∀ d ∈ computeSuggestions "an" [anitaDoctor, karanDoctor],
      d ∈ [anitaDoctor, karanDoctor] ∧
        ∃ s t, s ++ lowerChars "an" ++ t = lowerChars d.name :=
  suggestions_spec "an" [anitaDoctor, karanDoctor]

/-- With the key `"fees"` the sort stage is `mergeSort` under the
fee comparator. -/
theorem sortStage_fees_eq (l : List Doctor) :
    sortStage (some "fees") l =
      l.mergeSort (fun a b => sortComparator "fees" a b ≤ 0) := by
  simp only [sortStage]
  rw [if_neg (by decide : ¬ ("fees" : String) = "")]

/-- With the key `"experience"` the sort stage is `mergeSort` under the
experience comparator. -/
theorem sortStage_experience_eq (l : List Doctor) :
    sortStage (some "experience") l =
      l.mergeSort (fun a b => sortComparator "experience" a b ≤ 0) := by
  simp only [sortStage]
  rw [if_neg (by decide : ¬ ("experience" : String) = "")]

/-- C3: with sort key `"fees"` the pipeline stage permutes the filtered
list into ascending order of the parsed fee, stably: the doctors of any
single fee value keep their relative order.  On fees
`["₹ 500", "₹ 100", "abc"]` the result is `["abc", "₹ 100", "₹ 500"]`,
the unparseable `"abc"` counting as fee `0`. -/
theorem fees_sort_spec (l : List Doctor) :
    sortStage (some "fees") l ~ l ∧
    (sortStage (some "fees") l).Pairwise
      (fun a b => parseFee a.fees ≤ parseFee b.fees) ∧
    (∀ v : Nat,
      (sortStage (some "fees") l).filter (fun x => parseFee x.fees == v) =
        l.filter (fun x => parseFee x.fees == v)) ∧
    sortStage (some "fees") [feeDoc500, feeDoc100, feeDocAbc] =
      [feeDocAbc, feeDoc100, feeDoc500] ∧
    parseFee feeDoc500.fees = 500 ∧ parseFee feeDoc100.fees = 100 ∧
    parseFee feeDocAbc.fees = 0 := by
  have h500 : parseFee feeDoc500.fees = 500 := by decide
  have h100 : parseFee feeDoc100.fees = 100 := by decide
  have h0 : parseFee feeDocAbc.fees = 0 := by decide
  refine ⟨?_, ?_, ?_, ?_, h500, h100, h0⟩
  · rw [sortStage_fees_eq]
    exact List.mergeSort_perm l _
  · rw [sortStage_fees_eq]
    refine List.Pairwise.imp ?_ (List.sorted_mergeSort ?_ ?_ l)
    · intro a b hab
      simp [sortComparator] at hab
      omega
    · intro a b c hab hbc
      simp [sortComparator] at hab hbc ⊢
      omega
    · intro a b
      simp [sortComparator]
      omega
  · intro v
    rw [sortStage_fees_eq]
    apply mergeSort_filter_of_class
    · intro a b c hab hbc
      simp [sortComparator] at hab hbc ⊢
      omega
    · intro a b
      simp [sortComparator]
      omega
    · intro a b ha hb
      simp only [beq_iff_eq] at ha hb
      simp [sortComparator, ha, hb]
  · rw [sortStage_fees_eq]
    simp [List.mergeSort, List.splitInTwo, List.splitAt, List.splitAt.go,
      List.merge, sortComparator, h500, h100, h0]

/-- C4: with sort key `"experience"` the pipeline stage permutes the
filtered list into descending order of the leading integer of the
experience string, stably: doctors of equal experience keep their relative
order.  On `["5 Years of experience", "13 Years of experience"]` the
13-year entry comes first. -/
theorem experience_sort_spec (l : List Doctor) :
    sortStage (some "experience") l ~ l ∧
    (sortStage (some "experience") l).Pairwise
      (fun a b => parseExperience b.experience ≤ parseExperience a.experience) ∧
    (∀ v : Nat,
      (sortStage (some "experience") l).filter
          (fun x => parseExperience x.experience == v) =
        l.filter (fun x => parseExperience x.experience == v)) ∧
    sortStage (some "experience") [expDoc5, expDoc13] = [expDoc13, expDoc5] ∧
    parseExperience expDoc5.experience = 5 ∧
    parseExperience expDoc13.experience = 13 := by
  have h5 : parseExperience expDoc5.experience = 5 := by decide
  have h13 : parseExperience expDoc13.experience = 13 := by decide
  refine ⟨?_, ?_, ?_, ?_, h5, h13⟩
  · rw [sortStage_experience_eq]
    exact List.mergeSort_perm l _
  · rw [sortStage_experience_eq]
    refine List.Pairwise.imp ?_ (List.sorted_mergeSort ?_ ?_ l)
    · intro a b hab
      simp [sortComparator] at hab
      omega
    · intro a b c hab hbc
      simp [sortComparator] at hab hbc ⊢
      omega
    · intro a b
      simp [sortComparator]
      omega
  · intro v
    rw [sortStage_experience_eq]
    apply mergeSort_filter_of_class
    · intro a b c hab hbc
      simp [sortComparator] at hab hbc ⊢
      omega
    · intro a b
      simp [sortComparator]
      omega
    · intro a b ha hb
      simp only [beq_iff_eq] at ha hb
      simp [sortComparator, ha, hb]
  · rw [sortStage_experience_eq]
    simp [List.mergeSort, List.splitInTwo, List.splitAt, List.splitAt.go,
      List.merge, sortComparator, h5, h13]

/-- A constant-false search finds nothing. -/
theorem find?_const_false {α : Type} (l : List α) :
    l.find? (fun _ => false) = none := by
  induction l with
  | nil => rfl
  | cons a t ih => simp [List.find?_cons, ih]

/-- C9, amended: serialization emits `search` exactly when the search text
is non-empty, `consultation` and `sort` exactly when set (they are non-empty
whenever set, by hypothesis), and one `specialty` pair per selected
specialty in order; parsing the result reproduces the state exactly, so the
round-trip is the identity on states whose consultation mode and sort key
are not the empty string (the empty string is omitted by the truthiness
test on serialization but survives parsing, see the counterexample). -/
theorem url_roundtrip_spec (st : FilterState)
    (hc : st.selectedConsultation ≠ some "") (hs : st.sortBy ≠ some "") :
    paramsGet (updateUrlParams st) "search" =
      (if st.searchTerm = "" then none else some st.searchTerm) ∧
    paramsGet (updateUrlParams st) "consultation" = st.selectedConsultation ∧
    paramsGetAll (updateUrlParams st) "specialty" = st.selectedSpecialties ∧
    paramsGet (updateUrlParams st) "sort" = st.sortBy ∧
    initStateFromParams (updateUrlParams st) = st := by
  obtain ⟨q, c, sp, k⟩ := st
  simp only [ne_eq] at hc hs
  have hcv : ∀ cv, c = some cv → cv ≠ "" := by
    intro cv hcveq hne
    exact hc (by simp [hcveq, hne])
  have hkv : ∀ kv, k = some kv → kv ≠ "" := by
    intro kv hkveq hne
    exact hs (by simp [hkveq, hne])
  rcases c with _ | cv
  · rcases k with _ | kv
    · by_cases hq : q = "" <;>
        simp [updateUrlParams, initStateFromParams, paramsGet, paramsGetAll,
          hq, List.find?_append, List.filter_append, List.filter_map,
          List.map_map, Function.comp_def, find?_const_false,
          FilterState.mk.injEq]
    · have hkv' : kv ≠ "" := hkv kv rfl
      by_cases hq : q = "" <;>
        simp [updateUrlParams, initStateFromParams, paramsGet, paramsGetAll,
          hq, hkv', List.find?_append, List.filter_append, List.filter_map,
          List.map_map, Function.comp_def, find?_const_false,
          FilterState.mk.injEq]
  · have hcv' : cv ≠ "" := hcv cv rfl
    rcases k with _ | kv
    · by_cases hq : q = "" <;>
        simp [updateUrlParams, initStateFromParams, paramsGet, paramsGetAll,
          hq, hcv', List.find?_append, List.filter_append, List.filter_map,
          List.map_map, Function.comp_def, find?_const_false,
          FilterState.mk.injEq]
    · have hkv' : kv ≠ "" := hkv kv rfl
      by_cases hq : q = "" <;>
        simp [updateUrlParams, initStateFromParams, paramsGet, paramsGetAll,
          hq, hcv', hkv', List.find?_append, List.filter_append,
          List.filter_map, List.map_map, Function.comp_def, find?_const_false,
          FilterState.mk.injEq]

/-- Witness for `url_roundtrip_spec` at a concrete filter state with all
four fields active. -/
theorem url_roundtrip_spec_witness :
    paramsGet (updateUrlParams
        { searchTerm := "an", selectedConsultation := some "video",
          selectedSpecialties := ["Dentist", "ENT"], sortBy := some "fees" })
        "search" =
      (if ("an" : String) = "" then none else some "an") ∧
    paramsGet (updateUrlParams
        { searchTerm := "an", selectedConsultation := some "video",
          selectedSpecialties := ["Dentist", "ENT"], sortBy := some "fees" })
        "consultation" = some "video" ∧
    paramsGetAll (updateUrlParams
        { searchTerm := "an", selectedConsultation := some "video",
          selectedSpecialties := ["Dentist", "ENT"], sortBy := some "fees" })
        "specialty" = ["Dentist", "ENT"] ∧
    paramsGet (updateUrlParams
        { searchTerm := "an", selectedConsultation := some "video",
          selectedSpecialties := ["Dentist", "ENT"], sortBy := some "fees" })
        "sort" = some "fees" ∧
    initStateFromParams (updateUrlParams
        { searchTerm := "an", selectedConsultation := some "video",
          selectedSpecialties := ["Dentist", "ENT"], sortBy := some "fees" }) =
      { searchTerm := "an", selectedConsultation := some "video",
        selectedSpecialties := ["Dentist", "ENT"], sortBy := some "fees" } :=
  url_roundtrip_spec
    { searchTerm := "an", selectedConsultation := some "video",
      selectedSpecialties := ["Dentist", "ENT"], sortBy := some "fees" }
    (by decide) (by decide)

end DoctorListing
